import Mathlib

/-!
Verification of the issue-tracker reconciliation logic of the hackathon bot.

The development shallowly embeds the reconciliation code: naive datetimes
and the dateutil relativedelta calendar arithmetic used by
tracker/utils.py, the GitHub JSON documents as structures of optional
fields, the network as an oracle parameter, and the redis cache of
tracker/tasks.py as an explicit record restricted to the two keys the
task touches.
-/

namespace Tracker

/-- Naive timestamps (year, month, day, hour, minute, second), the shape
obtained from parsing a GitHub created_at string with the format
"%Y-%m-%dT%H:%M:%SZ". -/
structure DateTime where
  year : Nat
  month : Nat
  day : Nat
  hour : Nat
  minute : Nat
  second : Nat
deriving DecidableEq, Repr

/-- Gregorian leap-year rule, as in Python's calendar module. -/
def isLeap (y : Nat) : Bool :=
  (y % 4 == 0 && y % 100 != 0) || y % 400 == 0

/-- Number of days of a month, as in Python's calendar.monthrange. -/
def daysInMonth (y m : Nat) : Nat :=
  if m == 2 then (if isLeap y then 29 else 28)
  else if m == 4 || m == 6 || m == 9 || m == 11 then 30
  else 31

/-- Days of all years strictly before year y (proleptic Gregorian),
as in Python's datetime date ordinal computation. -/
def daysBeforeYear (y : Nat) : Nat :=
  (y - 1) * 365 + (y - 1) / 4 + (y - 1) / 400 - (y - 1) / 100

/-- Days of the months of year y strictly before month m. -/
def daysBeforeMonth (y m : Nat) : Nat :=
  (List.range (m - 1)).foldl (fun acc i => acc + daysInMonth y (i + 1)) 0

/-- Proleptic Gregorian ordinal of the date, as in Python's
date.toordinal. -/
def toOrdinal (dt : DateTime) : Nat :=
  daysBeforeYear dt.year + daysBeforeMonth dt.year dt.month + dt.day

/-- Absolute second count of a naive datetime; datetime comparison and
subtraction in Python agree with comparison and subtraction of these
counts on valid dates. -/
def toSeconds (dt : DateTime) : Nat :=
  ((toOrdinal dt) * 24 + dt.hour) * 3600 + dt.minute * 60 + dt.second

/-- The date is a real calendar date (month in range and day within the
month). -/
def ValidDate (dt : DateTime) : Prop :=
  1 ≤ dt.month ∧ dt.month ≤ 12 ∧ 1 ≤ dt.day ∧ dt.day ≤ daysInMonth dt.year dt.month

instance (dt : DateTime) : Decidable (ValidDate dt) := by
  unfold ValidDate; infer_instance

/-- Adding k calendar months to a datetime, clamping the day of month to
the target month's length: the effect of adding a dateutil relativedelta
holding k months to a datetime. -/
def addMonths (dt : DateTime) (k : Int) : DateTime :=
  let t : Int := (dt.year : Int) * 12 + ((dt.month : Int) - 1) + k
  let y : Nat := (t / 12).toNat
  let m : Nat := (t % 12).toNat + 1
  { dt with year := y, month := m, day := min dt.day (daysInMonth y m) }

/-- The initial month estimate of relativedelta(dt1, dt2):
(dt1.year - dt2.year) * 12 + (dt1.month - dt2.month). -/
def rdInitialMonths (dt1 dt2 : DateTime) : Int :=
  ((dt1.year : Int) - (dt2.year : Int)) * 12 + ((dt1.month : Int) - (dt2.month : Int))

/-- The decrementing adjustment loop of the relativedelta constructor for
dt1 greater or equal dt2: while dt1 is less than dt2 plus the month
estimate, decrement the estimate. The fuel bounds the iteration count;
one decrement always suffices mathematically and callers pass ample fuel. -/
def rdAdjustDown (dt1 dt2 : DateTime) : Nat → Int → Int
  | 0, m => m
  | n + 1, m =>
    if toSeconds dt1 < toSeconds (addMonths dt2 m) then rdAdjustDown dt1 dt2 n (m - 1)
    else m

/-- The incrementing adjustment loop of the relativedelta constructor for
dt1 less than dt2. -/
def rdAdjustUp (dt1 dt2 : DateTime) : Nat → Int → Int
  | 0, m => m
  | n + 1, m =>
    if toSeconds (addMonths dt2 m) < toSeconds dt1 then rdAdjustUp dt1 dt2 n (m + 1)
    else m

/-- The final month component of relativedelta(dt1, dt2). -/
def rdMonths (dt1 dt2 : DateTime) : Int :=
  let m0 := rdInitialMonths dt1 dt2
  if toSeconds dt1 < toSeconds dt2 then rdAdjustUp dt1 dt2 (m0.natAbs + 2) m0
  else rdAdjustDown dt1 dt2 (m0.natAbs + 2) m0

/-- Integer division truncating toward zero, as the sign-symmetric divmod
cascade of the relativedelta normalization step computes. -/
def truncDiv (a : Int) (n : Nat) : Int :=
  if 0 ≤ a then a / n else -((-a) / n)

/-- The days component of dateutil relativedelta(dt1=dt1, dt2=dt2): the
whole days of the remainder left after removing whole calendar months
from the span, truncated toward zero. -/
def relativedeltaDays (dt1 dt2 : DateTime) : Int :=
  let dtm := addMonths dt2 (rdMonths dt1 dt2)
  truncDiv ((toSeconds dt1 : Int) - (toSeconds dtm : Int)) 86400

/-- Result of a requests.get call: either the decoded JSON payload or a
raised requests RequestException (caught by every caller). -/
inductive FetchResult (α : Type) where
  | ok (val : α)
  | reqError
deriving DecidableEq, Repr

/-- A GitHub user object, of which the code reads only the login field
(None when the field is missing). -/
structure GHUser where
  login : Option String
deriving DecidableEq, Repr

/-- One entry of an issue's event timeline; assigneeLogin models the
lookup event.get("assignee", dict()).get("login", "") with none standing
for a missing assignee object or login field, and createdAt models the
created_at field, none standing for a missing field. -/
structure IssueEvent where
  event : Option String
  assigneeLogin : Option String
  createdAt : Option DateTime
deriving DecidableEq, Repr

/-- An issue document, restricted to the fields the code reads. The
assignee field is none when missing, null or an empty (falsy) object;
draft and isPullRequest are the truthiness of the draft and pull_request
entries. -/
structure Issue where
  state : Option String
  assignee : Option GHUser
  draft : Bool
  isPullRequest : Bool
  eventsUrl : Option String
  title : Option String
deriving DecidableEq, Repr

/-- A pull request document, restricted to the fields the code reads;
userLogin models pull_request.get("user", dict()).get("login"). -/
structure PullRequest where
  userLogin : Option String
  title : Option String
deriving DecidableEq, Repr

/-- The network oracle for event-timeline requests: what requests.get
answers for each nonempty URL. -/
def Network : Type := String → FetchResult (List IssueEvent)

/-- The assignment information assembled by check_issue_assignment_events:
the dictionary with the keys assignee and assigned_at. The assignee login
defaults to the empty string; assignedAt is none when the created_at
field was missing (the empty-string default, falsy downstream). -/
structure AssignmentInfo where
  assignee : String
  assignedAt : Option DateTime
deriving DecidableEq, Repr

/-- The dictionary entry written for one assigned event. -/
def mkAssignmentInfo (e : IssueEvent) : AssignmentInfo :=
  ⟨e.assigneeLogin.getD "", e.createdAt⟩

/-- The test event.get("event") == "assigned" of the loop body. -/
def isAssignedEvent (e : IssueEvent) : Bool :=
  e.event == some "assigned"

/-- The loop of check_issue_assignment_events over the event list: each
assigned event overwrites the two dictionary keys; the result is none
when no assigned event occurred (the dictionary stayed empty). -/
def assignmentFromEvents (events : List IssueEvent) : Option AssignmentInfo :=
  events.foldl
    (fun acc e => if isAssignedEvent e then some (mkAssignmentInfo e) else acc)
    none

/-- requests.get on the events URL: with an empty URL string the requests
library raises MissingSchema, a RequestException, while preparing the
request, before any network interaction, so the oracle is not consulted. -/
def requestsGetEvents (net : Network) (url : String) : FetchResult (List IssueEvent) :=
  if url = "" then .reqError else net url

/-- tracker/utils.py, check_issue_assignment_events: fetches the issue's
event timeline (issue.get("events_url", str())) and keeps the data of the
last assigned event; any RequestException yields the empty dictionary. -/
def check_issue_assignment_events (net : Network) (issue : Issue) : Option AssignmentInfo :=
  match requestsGetEvents net (issue.eventsUrl.getD "") with
  | .reqError => none
  | .ok events => assignmentFromEvents events

/-- tracker/utils.py, get_all_open_and_assigned_issues: fetches the issue
list and keeps open, assigned, non-draft issues that are not pull
requests; a RequestException yields the empty list. -/
def get_all_open_and_assigned_issues (fetch : FetchResult (List Issue)) : List Issue :=
  match fetch with
  | .reqError => []
  | .ok issues =>
    issues.filter fun i => i.state == some "open" && i.assignee.isSome && !i.draft && !i.isPullRequest

/-- tracker/utils.py, get_all_open_pull_requests: fetches the open pull
request list; a RequestException yields the empty list. -/
def get_all_open_pull_requests (fetch : FetchResult (List PullRequest)) : List PullRequest :=
  match fetch with
  | .reqError => []
  | .ok prs => prs

/-- The days value the enrichment loop of get_issues_without_pull_requests
stores on each issue: the days component of relativedelta(dt1=now,
dt2=parsed assigned_at) when an assignment timestamp is present (a falsy
relativedelta also yields 0, which equals its days component), else 0. -/
def issueDays (now : DateTime) (assignedAt : Option DateTime) : Int :=
  match assignedAt with
  | some d => relativedeltaDays now d
  | none => 0

/-- An issue dictionary after the enrichment loop added the
assignment_info and days keys. -/
structure EnrichedIssue where
  issue : Issue
  assignmentInfo : Option AssignmentInfo
  days : Int
deriving DecidableEq, Repr

/-- The body of the enrichment loop of get_issues_without_pull_requests. -/
def enrichIssue (net : Network) (now : DateTime) (i : Issue) : EnrichedIssue :=
  let info := check_issue_assignment_events net i
  ⟨i, info, issueDays now (info.bind fun a => a.assignedAt)⟩

/-- The pull_requests_users list comprehension: the author logins of the
fetched pull requests, keeping only truthy (present and nonempty) logins. -/
def pullRequestsUsers (prs : List PullRequest) : List String :=
  prs.filterMap fun pr => pr.userLogin.bind fun s => if s = "" then none else some s

/-- The lookup issue.get("assignee", dict()).get("login"). -/
def issueAssigneeLogin (i : Issue) : Option String :=
  (i.assignee.getD ⟨none⟩).login

/-- The Python membership test x not in users for x an optional string
and users a list of strings (None is distinct from every string). -/
def pyNotIn (x : Option String) (users : List String) : Bool :=
  match x with
  | some s => !users.contains s
  | none => true

/-- tracker/utils.py, get_issues_without_pull_requests: enriches the
open assigned issues with assignment info and days since assignment, then
keeps those at least one day old whose assignee login is not among the
open pull request author logins. The network and the current time are
explicit parameters. -/
def get_issues_without_pull_requests (net : Network) (now : DateTime)
    (issuesFetch : FetchResult (List Issue)) (pullsFetch : FetchResult (List PullRequest)) :
    List EnrichedIssue :=
  let issues := (get_all_open_and_assigned_issues issuesFetch).map (enrichIssue net now)
  let users := pullRequestsUsers (get_all_open_pull_requests pullsFetch)
  issues.filter fun e => decide (1 ≤ e.days) && pyNotIn (issueAssigneeLogin e.issue) users

/-- A Python dict of string keys, modelled as an insertion-ordered
association list; d.get(k) and d[k] both look up the first (unique)
matching key. -/
def pyGet {α : Type} : List (String × α) → String → Option α
  | [], _ => none
  | (k', v) :: rest, k => if k' = k then some v else pyGet rest k

/-- tracker/utils.py, compare_two_repo_dicts: for each key of dict1 in
order, compares the entry lengths; a strictly longer current list
contributes its first len_1 - len_2 entries to the diff. The unguarded
dict2[key] lookup raises KeyError when the key is absent, modelled by the
none result. -/
def compare_two_repo_dicts :
    List (String × List String) → List (String × List String) →
    Option (List (String × List String))
  | [], _ => some []
  | (k, v1) :: rest, dict2 =>
    match pyGet dict2 k with
    | none => none
    | some v2 =>
      match compare_two_repo_dicts rest dict2 with
      | none => none
      | some diff =>
        if v2.length < v1.length then some ((k, v1.take (v1.length - v2.length)) :: diff)
        else some diff

/-- The message returned by get_time_before_deadline, with the literal
strings of the source abstracted into constructors: notAssigned is
"This issue is not assigned.", noRepositoryDetails is "Repository details
not found.", timeRemaining d h is "Time remaining: d days, h hours" and
deadlinePassed is "Deadline has passed.". -/
inductive DeadlineReport where
  | notAssigned
  | noRepositoryDetails
  | timeRemaining (days : Nat) (hours : Nat)
  | deadlinePassed
deriving DecidableEq, Repr

/-- Modelled from the spec: the constant SECONDS_IN_AN_HOUR of
tracker/values.py, a file absent from the sources; the spec's hour count
truncated from remaining seconds fixes it at 3600. -/
def SECONDS_IN_AN_HOUR : Nat := 3600

/-- tracker/utils.py, get_time_before_deadline: the assignment info (the
network fetch result), the parsed repository details and the repository's
configured time limit from the database are explicit parameters. Checks
assignment first, then repository details, then compares now with
assigned time plus the limit; a positive remainder is reported through
the day and hour fields of a Python timedelta. -/
def get_time_before_deadline (info : Option AssignmentInfo)
    (repoDetails : Option (String × String)) (timeLimitSeconds : Nat)
    (now : DateTime) : DeadlineReport :=
  match info.bind fun a => a.assignedAt with
  | none => .notAssigned
  | some assignedTime =>
    match repoDetails with
    | none => .noRepositoryDetails
    | some _ =>
      let deadline := toSeconds assignedTime + timeLimitSeconds
      let nowS := toSeconds now
      if nowS < deadline then
        let remaining := deadline - nowS
        .timeRemaining (remaining / 86400) (remaining % 86400 / SECONDS_IN_AN_HOUR)
      else .deadlinePassed

/-- Following the spec's words, for comparison with the code: the
difference in whole days between now and the assignment time. -/
def wholeDaysBetween (now d : DateTime) : Int :=
  ((toSeconds now : Int) - (toSeconds d : Int)) / 86400

/-- A Python exception escaping the modelled fragment. -/
inductive PyError where
  | valueError
  | keyError (key : String)
  | jsonError
deriving DecidableEq, Repr

/-- The message body listing every new issue title of a repository inside
a blockquote element. -/
def issuesBlock (issues : List String) : String :=
  issues.foldl (fun m i => m ++ "<blockquote>" ++ i ++ "</blockquote>") ""

/-- The inner loop of send_new_issue_notification: repos is the second
element of the unpacked pair, a repository-name string, so the loop
iterates over its characters; each character is looked up as a key of
repo_to_issues_map (KeyError when absent) and one message is sent per
character, to the first element of the unpacked pair as chat id. Returns
the messages sent before any exception, paired with the exception if one
was raised. -/
def sendChars (repoToIssuesMap : List (String × List String)) (tgId : String) :
    List Char → List (String × String) × Option PyError
  | [] => ([], none)
  | c :: cs =>
    let repo := String.singleton c
    match pyGet repoToIssuesMap repo with
    | none => ([], some (.keyError repo))
    | some issues =>
      let message := "There are new issues in " ++ repo ++ "!\n" ++ issuesBlock issues
      let rest := sendChars repoToIssuesMap tgId cs
      ((tgId, message) :: rest.1, rest.2)

/-- The outer loop of send_new_issue_notification over
id_to_repos_map.values(): each value, a list of repository names, is
tuple-unpacked into two variables, raising ValueError unless it has
exactly two elements. -/
def sendValues (repoToIssuesMap : List (String × List String)) :
    List (List String) → List (String × String) × Option PyError
  | [] => ([], none)
  | v :: vs =>
    match v with
    | [tgId, repos] =>
      let sent := sendChars repoToIssuesMap tgId repos.toList
      match sent.2 with
      | some e => (sent.1, some e)
      | none =>
        let rest := sendValues repoToIssuesMap vs
        (sent.1 ++ rest.1, rest.2)
    | _ => ([], some .valueError)

/-- tracker/telegram/bot.py, send_new_issue_notification: iterates over
the values of id_to_repos_map (not its items) and unpacks each value;
returns the list of (chat id, message) sends that happened, paired with
the first exception raised, if any. There is no exception handling around
the sends in the source. -/
def send_new_issue_notification (idToReposMap repoToIssuesMap : List (String × List String)) :
    List (String × String) × Option PyError :=
  sendValues repoToIssuesMap (idToReposMap.map fun p => p.2)

/-- The redis cache as seen by tracker/tasks.py, restricted to the only
two keys the program touches: firstRunFlag is the existence of the
task_first_run_flag key, existingIssues the parsed JSON value stored
under the existing:issues key (none when the key is absent). -/
structure Cache where
  firstRunFlag : Bool
  existingIssues : Option (List (String × List String))
deriving DecidableEq, Repr

/-- The outcome of one successful run of the periodic task: the cache it
leaves behind and the notifications it sent. -/
structure CycleResult where
  cache : Cache
  notifications : List (String × String)
deriving DecidableEq, Repr

/-- tracker/tasks.py, get_relevant_recipients: the fetched current
snapshot (get_existing_issues_for_subscribed_users) and the construction
of user_repo_map from the repositories with new issues (a database query
per subscriber) are explicit parameters. When the task_first_run_flag key
does not exist, the current snapshot is stored under existing:issues and
the task returns; otherwise the cached snapshot is read (json.loads of
str(None) raises when the key is absent), diffed against the current one,
and the notifications are dispatched. No branch ever writes the
task_first_run_flag key, and the diff branch never writes existing:issues. -/
def get_relevant_recipients (fetched : List (String × List String))
    (userRepoMap : List String → List (String × List String))
    (cache : Cache) : Except PyError CycleResult :=
  if !cache.firstRunFlag then
    .ok ⟨{ cache with existingIssues := some fetched }, []⟩
  else
    match cache.existingIssues with
    | none => .error .jsonError
    | some prev =>
      match compare_two_repo_dicts fetched prev with
      | none => .error (.keyError "")
      | some newIssues =>
        let reposWithNewIssues := newIssues.map fun p => p.1
        let sent := send_new_issue_notification (userRepoMap reposWithNewIssues) newIssues
        match sent.2 with
        | some e => .error e
        | none => .ok ⟨cache, sent.1⟩

/-- Successive invocations of the periodic task: each element of the list
is the snapshot fetched on one cycle; a cycle that raises leaves the
cache untouched and the scheduler runs the next cycle regardless. Returns
the final cache and every notification sent over the whole run. -/
def runCycles (userRepoMap : List String → List (String × List String)) :
    Cache → List (List (String × List String)) → Cache × List (String × String)
  | cache, [] => (cache, [])
  | cache, f :: fs =>
    match get_relevant_recipients f userRepoMap cache with
    | .ok r =>
      let rest := runCycles userRepoMap r.cache fs
      (rest.1, r.notifications ++ rest.2)
    | .error _ => runCycles userRepoMap cache fs

/-! Concrete fixtures used by the theorems below. -/

/-- An open, assigned, non-draft issue with an events URL. -/
def sampleIssue : Issue :=
  ⟨some "open", some ⟨some "alice"⟩, false, false, some "https://api.github.com/events", some "title"⟩

/-- A network whose event endpoint reports a single assignment of alice
at the given time. -/
def netAssignedAt (d : DateTime) : Network :=
  fun _ => .ok [⟨some "assigned", some "alice", some d⟩]

/-- The reference current time of the threshold scenarios. -/
def sampleNow : DateTime := ⟨2025, 6, 10, 12, 0, 0⟩

/-- Twenty-three hours before sampleNow. -/
def dt23 : DateTime := ⟨2025, 6, 9, 13, 0, 0⟩

/-- Twenty-five hours before sampleNow. -/
def dt25 : DateTime := ⟨2025, 6, 9, 11, 0, 0⟩

/-- Thirty-five whole days before now35. -/
def dt35 : DateTime := ⟨2025, 9, 7, 12, 0, 0⟩

/-- The reference current time of the thirty-five day scenario. -/
def now35 : DateTime := ⟨2025, 10, 12, 12, 0, 0⟩

/-! Helper lemmas. -/

theorem list_find?_append {α : Type} (p : α → Bool) (l1 l2 : List α) :
    (l1 ++ l2).find? p = match l1.find? p with
      | some a => some a
      | none => l2.find? p := by
  induction l1 with
  | nil => simp
  | cons a l ih =>
    by_cases h : p a
    · simp [List.find?_cons_of_pos _ h, h]
    · rw [List.cons_append, List.find?_cons_of_neg _ (by simp [h]),
        List.find?_cons_of_neg _ (by simp [h]), ih]

theorem foldl_assignment (l : List IssueEvent) (acc : Option AssignmentInfo) :
    l.foldl (fun acc e => if isAssignedEvent e then some (mkAssignmentInfo e) else acc) acc
      = match l.reverse.find? isAssignedEvent with
        | some e => some (mkAssignmentInfo e)
        | none => acc := by
  induction l generalizing acc with
  | nil => rfl
  | cons e l ih =>
    rw [List.foldl_cons, ih, List.reverse_cons, list_find?_append]
    cases h : l.reverse.find? isAssignedEvent with
    | some e1 => rfl
    | none =>
      cases he : isAssignedEvent e <;> simp [List.find?, he]

theorem assignmentFromEvents_eq_last (events : List IssueEvent) :
    assignmentFromEvents events = (events.reverse.find? isAssignedEvent).map mkAssignmentInfo := by
  rw [assignmentFromEvents, foldl_assignment]
  cases events.reverse.find? isAssignedEvent <;> rfl

/-- Claim C3: for every event list returned by the events fetch,
check_issue_assignment_events returns the assignee login and created_at
timestamp of the last event in list order whose event type is assigned
(earlier matches are overwritten), returns the empty dictionary when the
list contains no assigned event, and returns the empty dictionary when
the issue has no events_url, for every network oracle alike, hence
without issuing a network call. -/
theorem check_issue_assignment_events_spec :
    (∀ (net : Network) (issue : Issue) (url : String) (events : List IssueEvent),
      issue.eventsUrl = some url → url ≠ "" → net url = .ok events →
      check_issue_assignment_events net issue
        = (events.reverse.find? isAssignedEvent).map mkAssignmentInfo)
    ∧ (∀ (net : Network) (issue : Issue) (url : String) (events : List IssueEvent),
      issue.eventsUrl = some url → url ≠ "" → net url = .ok events →
      (∀ e ∈ events, isAssignedEvent e = false) →
      check_issue_assignment_events net issue = none)
    ∧ (∀ issue : Issue, issue.eventsUrl = none →
      ∀ net : Network, check_issue_assignment_events net issue = none) := by
  have hbase : ∀ (net : Network) (issue : Issue) (url : String) (events : List IssueEvent),
      issue.eventsUrl = some url → url ≠ "" → net url = .ok events →
      check_issue_assignment_events net issue
        = (events.reverse.find? isAssignedEvent).map mkAssignmentInfo := by
    intro net issue url events hurl hne hnet
    rw [check_issue_assignment_events, hurl]
    rw [show (some url).getD "" = url from rfl]
    rw [requestsGetEvents, if_neg hne, hnet]
    exact assignmentFromEvents_eq_last events
  refine ⟨hbase, ?_, ?_⟩
  · intro net issue url events hurl hne hnet hno
    rw [hbase net issue url events hurl hne hnet]
    have : events.reverse.find? isAssignedEvent = none := by
      rw [List.find?_eq_none]
      intro e he
      simp [hno e (List.mem_reverse.mp he)]
    rw [this]; rfl
  · intro issue hurl net
    rw [check_issue_assignment_events, hurl]
    rfl

/-- Witness for C3 at concrete inputs: two assigned events, the second
one wins; an issue without events_url yields the empty dictionary. -/
theorem check_issue_assignment_events_spec_witness :
    check_issue_assignment_events
        (fun _ => .ok [⟨some "assigned", some "u1", some ⟨2024, 1, 1, 12, 0, 0⟩⟩,
          ⟨some "assigned", some "u2", some ⟨2024, 1, 2, 12, 0, 0⟩⟩]) sampleIssue
      = some ⟨"u2", some ⟨2024, 1, 2, 12, 0, 0⟩⟩
    ∧ check_issue_assignment_events (netAssignedAt dt25) ⟨some "open", none, false, false, none, none⟩
      = none :=
  ⟨(check_issue_assignment_events_spec.1
      (fun _ => .ok [⟨some "assigned", some "u1", some ⟨2024, 1, 1, 12, 0, 0⟩⟩,
        ⟨some "assigned", some "u2", some ⟨2024, 1, 2, 12, 0, 0⟩⟩]) sampleIssue
      "https://api.github.com/events" _ rfl (by decide) rfl).trans (by decide),
   check_issue_assignment_events_spec.2.2 ⟨some "open", none, false, false, none, none⟩ rfl
     (netAssignedAt dt25)⟩

theorem pyGet_isSome_iff_mem_keys {α : Type} (d : List (String × α)) (k : String) :
    (pyGet d k).isSome = true ↔ k ∈ d.map Prod.fst := by
  induction d with
  | nil => simp [pyGet]
  | cons p rest ih =>
    obtain ⟨k1, v⟩ := p
    by_cases hk : k1 = k
    · simp [pyGet, hk]
    · simp [pyGet, hk, ih, Ne.symm hk]

theorem pyGet_of_nodup_mem {α : Type} (d : List (String × α)) (k : String) (v : α)
    (hnd : (d.map Prod.fst).Nodup) (h : (k, v) ∈ d) : pyGet d k = some v := by
  induction d with
  | nil => simp at h
  | cons p rest ih =>
    obtain ⟨k1, v1⟩ := p
    rw [List.map_cons, List.nodup_cons] at hnd
    rcases List.mem_cons.mp h with he | hm
    · rw [Prod.mk.injEq] at he
      simp [pyGet, he.1.symm, he.2]
    · have hkmem : k ∈ rest.map Prod.fst := List.mem_map.mpr ⟨(k, v), hm, rfl⟩
      have hk : k1 ≠ k := fun he1 => hnd.1 (he1 ▸ hkmem)
      simp [pyGet, hk, ih hnd.2 hm]

theorem compare_isSome (d1 d2 : List (String × List String))
    (h : ∀ k ∈ d1.map Prod.fst, k ∈ d2.map Prod.fst) :
    (compare_two_repo_dicts d1 d2).isSome = true := by
  induction d1 with
  | nil => rfl
  | cons p rest ih =>
    obtain ⟨k, v1⟩ := p
    have hk : k ∈ d2.map Prod.fst := h k (by simp)
    obtain ⟨v2, hv2⟩ := Option.isSome_iff_exists.mp ((pyGet_isSome_iff_mem_keys d2 k).mpr hk)
    obtain ⟨diff, hdiff⟩ := Option.isSome_iff_exists.mp
      (ih fun k1 hk1 => h k1 (by simp [hk1]))
    rw [compare_two_repo_dicts, hv2, hdiff]
    by_cases hlen : v2.length < v1.length <;> simp [hlen]

theorem compare_char (d1 d2 : List (String × List String)) (r : List (String × List String))
    (hnd : (d1.map Prod.fst).Nodup) (hr : compare_two_repo_dicts d1 d2 = some r)
    (k : String) (v : List String) :
    (k, v) ∈ r ↔ ∃ v1 v2, (k, v1) ∈ d1 ∧ pyGet d2 k = some v2 ∧
      v2.length < v1.length ∧ v = v1.take (v1.length - v2.length) := by
  induction d1 generalizing r with
  | nil =>
    rw [compare_two_repo_dicts] at hr
    obtain rfl : [] = r := Option.some.inj hr
    simp
  | cons p rest ih =>
    obtain ⟨k0, v0⟩ := p
    rw [compare_two_repo_dicts] at hr
    cases hv2 : pyGet d2 k0 with
    | none => rw [hv2] at hr; cases hr
    | some v2 =>
      rw [hv2] at hr
      cases hdiff : compare_two_repo_dicts rest d2 with
      | none => rw [hdiff] at hr; cases hr
      | some diff =>
        rw [hdiff] at hr
        dsimp only at hr
        rw [List.map_cons, List.nodup_cons] at hnd
        have ihc := ih diff hnd.2 hdiff
        by_cases hlen : v2.length < v0.length
        · rw [if_pos hlen] at hr
          obtain rfl : (k0, v0.take (v0.length - v2.length)) :: diff = r := Option.some.inj hr
          constructor
          · intro hm
            rcases List.mem_cons.mp hm with he | hm1
            · rw [Prod.mk.injEq] at he
              obtain ⟨hk, hv⟩ := he
              subst hk
              exact ⟨v0, v2, List.mem_cons_self _ _, hv2, hlen, hv⟩
            · obtain ⟨w1, w2, h1, h2, h3, h4⟩ := ihc.mp hm1
              exact ⟨w1, w2, List.mem_cons_of_mem _ h1, h2, h3, h4⟩
          · rintro ⟨w1, w2, h1, h2, h3, h4⟩
            rcases List.mem_cons.mp h1 with he | h1'
            · rw [Prod.mk.injEq] at he
              obtain ⟨hk, hv⟩ := he
              subst hk hv
              rw [hv2] at h2
              obtain rfl := Option.some.inj h2
              subst h4
              exact List.mem_cons_self _ _
            · exact List.mem_cons_of_mem _ (ihc.mpr ⟨w1, w2, h1', h2, h3, h4⟩)
        · rw [if_neg hlen] at hr
          obtain rfl : diff = r := Option.some.inj hr
          constructor
          · intro hm
            obtain ⟨w1, w2, h1, h2, h3, h4⟩ := ihc.mp hm
            exact ⟨w1, w2, List.mem_cons_of_mem _ h1, h2, h3, h4⟩
          · rintro ⟨w1, w2, h1, h2, h3, h4⟩
            rcases List.mem_cons.mp h1 with he | h1'
            · rw [Prod.mk.injEq] at he
              obtain ⟨hk, hv⟩ := he
              subst hk hv
              rw [hv2] at h2
              obtain rfl := Option.some.inj h2
              exact absurd h3 hlen
            · exact ihc.mpr ⟨w1, w2, h1', h2, h3, h4⟩

theorem compare_eq_nil_of_sub (d1 d2 : List (String × List String))
    (h : ∀ k v, (k, v) ∈ d1 → pyGet d2 k = some v) :
    compare_two_repo_dicts d1 d2 = some [] := by
  induction d1 with
  | nil => rfl
  | cons p rest ih =>
    obtain ⟨k, v⟩ := p
    rw [compare_two_repo_dicts, h k v (List.mem_cons_self _ _),
      ih fun k1 v1 h1 => h k1 v1 (List.mem_cons_of_mem _ h1)]
    simp

/-- Claim C2: on every pair of snapshots whose current keys all occur in
the previous snapshot (the domain on which the unguarded dict2 lookup
cannot raise, see the partiality theorem), compare_two_repo_dicts returns
a mapping whose entries are exactly the repositories whose current title
list is strictly longer than the previous one, each mapped to the first
len_1 - len_2 entries of the current list; repositories with equal or
fewer entries are omitted, and diffing a snapshot against itself yields
the empty mapping. -/
theorem compare_two_repo_dicts_spec :
    (∀ (d1 d2 : List (String × List String)),
      (d1.map Prod.fst).Nodup →
      (∀ k ∈ d1.map Prod.fst, k ∈ d2.map Prod.fst) →
      ∃ r, compare_two_repo_dicts d1 d2 = some r ∧
        ∀ (k : String) (v : List String),
          (k, v) ∈ r ↔ ∃ v1 v2, (k, v1) ∈ d1 ∧ pyGet d2 k = some v2 ∧
            v2.length < v1.length ∧ v = v1.take (v1.length - v2.length))
    ∧ ∀ s : List (String × List String), (s.map Prod.fst).Nodup →
        compare_two_repo_dicts s s = some [] := by
  constructor
  · intro d1 d2 hnd hsub
    obtain ⟨r, hr⟩ := Option.isSome_iff_exists.mp (compare_isSome d1 d2 hsub)
    exact ⟨r, hr, compare_char d1 d2 r hnd hr⟩
  · intro s hnd
    exact compare_eq_nil_of_sub s s fun k v hv => pyGet_of_nodup_mem s k v hnd hv

/-- Witness for C2: a snapshot diffed against itself gives the empty
mapping. -/
theorem compare_two_repo_dicts_spec_witness :
    compare_two_repo_dicts [("repo", ["a", "b"])] [("repo", ["a", "b"])] = some [] :=
  compare_two_repo_dicts_spec.2 [("repo", ["a", "b"])] (by decide)

/-- Claim C9: compare_two_repo_dicts is only total when every key of the
current snapshot also occurs in the previous one: on a current snapshot
holding a repository key absent from the previous snapshot the unguarded
dict2 lookup raises KeyError (the none result) instead of reporting that
repository's issues as new or skipping it, while under the key-inclusion
precondition the function always returns a mapping. -/
theorem compare_two_repo_dicts_partiality :
    compare_two_repo_dicts [("newrepo", ["i1", "i2"])] [] = none
    ∧ ∀ (d1 d2 : List (String × List String)),
      (∀ k ∈ d1.map Prod.fst, k ∈ d2.map Prod.fst) →
      (compare_two_repo_dicts d1 d2).isSome = true :=
  ⟨rfl, compare_isSome⟩

/-- Witness for C9 at a concrete input satisfying the precondition. -/
theorem compare_two_repo_dicts_partiality_witness :
    (compare_two_repo_dicts [("a", ["x"])] [("a", [])]).isSome = true :=
  compare_two_repo_dicts_partiality.2 [("a", ["x"])] [("a", [])] (by decide)

theorem mem_pullRequestsUsers (prs : List PullRequest) (s : String) :
    s ∈ pullRequestsUsers prs ↔ ∃ pr ∈ prs, pr.userLogin = some s ∧ s ≠ "" := by
  rw [pullRequestsUsers, List.mem_filterMap]
  constructor
  · rintro ⟨pr, hpr, hf⟩
    cases hl : pr.userLogin with
    | none => rw [hl] at hf; cases hf
    | some t =>
      rw [hl] at hf
      by_cases ht : t = ""
      · simp [ht] at hf
      · rw [show (some t).bind (fun s => if s = "" then none else some s)
            = if t = "" then none else some t from rfl, if_neg ht] at hf
        obtain rfl := Option.some.inj hf
        exact ⟨pr, hpr, hl, ht⟩
  · rintro ⟨pr, hpr, hl, hs⟩
    refine ⟨pr, hpr, ?_⟩
    rw [hl]
    simp [hs]

theorem pyNotIn_pullRequestsUsers_iff (x : Option String) (prs : List PullRequest) :
    pyNotIn x (pullRequestsUsers prs) = true ↔
      ¬ ∃ pr ∈ prs, ∃ s : String, s ≠ "" ∧ pr.userLogin = some s ∧ x = some s := by
  cases x with
  | none => simp [pyNotIn]
  | some s0 =>
    rw [show pyNotIn (some s0) (pullRequestsUsers prs)
        = !(pullRequestsUsers prs).contains s0 from rfl]
    rw [show ((!(pullRequestsUsers prs).contains s0) = true ↔ ¬ s0 ∈ pullRequestsUsers prs)
        from by simp]
    constructor
    · intro hnm ⟨pr, hpr, s, hs, hl, he⟩
      obtain rfl := Option.some.inj he
      exact hnm ((mem_pullRequestsUsers prs s0).mpr ⟨pr, hpr, hl, hs⟩)
    · intro hne hm
      obtain ⟨pr, hpr, hl, hs⟩ := (mem_pullRequestsUsers prs s0).mp hm
      exact hne ⟨pr, hpr, s0, hs, hl, rfl⟩

/-- Claim C1: for every fetched issue list and open-pull-request list,
get_issues_without_pull_requests returns an enriched issue exactly when
its computed days value is at least 1 and its assignee's login is not
among the (truthy) author logins of the open pull requests; in
particular, the issue assigned twenty-three hours before now is not
returned, and the issue assigned twenty-five hours before now is
returned when its assignee authored no open pull request. -/
theorem get_issues_without_pull_requests_spec :
    (∀ (net : Network) (now : DateTime) (issuesFetch : FetchResult (List Issue))
        (pullsFetch : FetchResult (List PullRequest)) (e : EnrichedIssue),
      e ∈ get_issues_without_pull_requests net now issuesFetch pullsFetch ↔
        e ∈ (get_all_open_and_assigned_issues issuesFetch).map (enrichIssue net now) ∧
        1 ≤ e.days ∧
        ¬ ∃ pr ∈ get_all_open_pull_requests pullsFetch,
            ∃ s : String, s ≠ "" ∧ pr.userLogin = some s ∧ issueAssigneeLogin e.issue = some s)
    ∧ get_issues_without_pull_requests (netAssignedAt dt23) sampleNow (.ok [sampleIssue]) (.ok [])
        = []
    ∧ get_issues_without_pull_requests (netAssignedAt dt25) sampleNow (.ok [sampleIssue]) (.ok [])
        = [⟨sampleIssue, some ⟨"alice", some dt25⟩, 1⟩] := by
  refine ⟨?_, by decide, by decide⟩
  intro net now issuesFetch pullsFetch e
  rw [get_issues_without_pull_requests]
  rw [List.mem_filter]
  rw [Bool.and_eq_true, decide_eq_true_eq,
    pyNotIn_pullRequestsUsers_iff (issueAssigneeLogin e.issue) (get_all_open_pull_requests pullsFetch)]

/-- Witness for C1: the twenty-five hour issue satisfies both sides of
the characterization. -/
theorem get_issues_without_pull_requests_spec_witness :
    (⟨sampleIssue, some ⟨"alice", some dt25⟩, 1⟩ : EnrichedIssue)
      ∈ get_issues_without_pull_requests (netAssignedAt dt25) sampleNow (.ok [sampleIssue]) (.ok []) :=
  (get_issues_without_pull_requests_spec.1 (netAssignedAt dt25) sampleNow
      (.ok [sampleIssue]) (.ok []) ⟨sampleIssue, some ⟨"alice", some dt25⟩, 1⟩).mpr
    ⟨by decide, by decide, by simp [get_all_open_pull_requests]⟩

/-- Claim C4: for every assignment timestamp, time limit in seconds and
current time, get_time_before_deadline reports the remaining whole-day
count and the hour count truncated from the remaining seconds while the
deadline lies ahead — in particular zero days and zero hours for a limit
of 3600 seconds examined 1800 seconds after assignment — reports that
the deadline has passed once now reaches assignment time plus the limit,
and reports that the issue is not assigned when no assignment timestamp
exists. -/
theorem get_time_before_deadline_spec :
    (∀ (a : String) (d : DateTime) (rd : String × String) (L : Nat) (now : DateTime),
      toSeconds now < toSeconds d + L →
      get_time_before_deadline (some ⟨a, some d⟩) (some rd) L now =
        .timeRemaining ((toSeconds d + L - toSeconds now) / 86400)
          ((toSeconds d + L - toSeconds now) % 86400 / 3600))
    ∧ (∀ (a : String) (d : DateTime) (rd : String × String) (L : Nat) (now : DateTime),
      toSeconds d + L ≤ toSeconds now →
      get_time_before_deadline (some ⟨a, some d⟩) (some rd) L now = .deadlinePassed)
    ∧ (∀ (info : Option AssignmentInfo) (rd : Option (String × String)) (L : Nat)
        (now : DateTime),
      (info.bind fun i => i.assignedAt) = none →
      get_time_before_deadline info rd L now = .notAssigned)
    ∧ get_time_before_deadline (some ⟨"alice", some ⟨2025, 1, 1, 0, 0, 0⟩⟩)
        (some ("owner", "repo")) 3600 ⟨2025, 1, 1, 0, 30, 0⟩ = .timeRemaining 0 0 := by
  refine ⟨?_, ?_, ?_, by decide⟩
  · intro a d rd L now h
    rw [get_time_before_deadline]
    rw [show ((some (⟨a, some d⟩ : AssignmentInfo)).bind fun i => i.assignedAt)
        = some d from rfl]
    dsimp only
    rw [if_pos h]
    rfl
  · intro a d rd L now h
    rw [get_time_before_deadline]
    rw [show ((some (⟨a, some d⟩ : AssignmentInfo)).bind fun i => i.assignedAt)
        = some d from rfl]
    dsimp only
    rw [if_neg (by omega)]
  · intro info rd L now h
    rw [get_time_before_deadline, h]

/-- Witness for C4: 7200 seconds after an assignment with a 3600 second
limit the deadline has passed, and a missing assignment is reported. -/
theorem get_time_before_deadline_spec_witness :
    get_time_before_deadline (some ⟨"alice", some ⟨2025, 1, 1, 0, 0, 0⟩⟩)
        (some ("owner", "repo")) 3600 ⟨2025, 1, 1, 2, 0, 0⟩ = .deadlinePassed
    ∧ get_time_before_deadline none (some ("owner", "repo")) 3600 ⟨2025, 1, 1, 2, 0, 0⟩
        = .notAssigned :=
  ⟨get_time_before_deadline_spec.2.1 "alice" ⟨2025, 1, 1, 0, 0, 0⟩ ("owner", "repo") 3600
      ⟨2025, 1, 1, 2, 0, 0⟩ (by decide),
   get_time_before_deadline_spec.2.2.1 none (some ("owner", "repo")) 3600
      ⟨2025, 1, 1, 2, 0, 0⟩ rfl⟩

theorem addMonths_zero (dt : DateTime) (hv : ValidDate dt) : addMonths dt 0 = dt := by
  obtain ⟨h1, h2, h3, h4⟩ := hv
  rw [addMonths]
  have hy : ((((dt.year : Int) * 12 + ((dt.month : Int) - 1) + 0) / 12).toNat) = dt.year := by
    omega
  have hm : ((((dt.year : Int) * 12 + ((dt.month : Int) - 1) + 0) % 12).toNat + 1) = dt.month := by
    omega
  rw [hy, hm, Nat.min_eq_left h4]

theorem rdMonths_same_month (now d : DateTime) (hv : ValidDate d)
    (hy : d.year = now.year) (hm : d.month = now.month)
    (hle : toSeconds d ≤ toSeconds now) : rdMonths now d = 0 := by
  rw [rdMonths, rdInitialMonths]
  have h0 : ((now.year : Int) - (d.year : Int)) * 12 + ((now.month : Int) - (d.month : Int)) = 0 := by
    omega
  rw [h0]
  rw [if_neg (by omega)]
  rw [show (0 : Int).natAbs + 2 = 2 from rfl]
  rw [rdAdjustDown]
  rw [addMonths_zero d hv]
  rw [if_neg (by omega)]

theorem issueDays_same_month (now d : DateTime) (hv : ValidDate d)
    (hy : d.year = now.year) (hm : d.month = now.month)
    (hle : toSeconds d ≤ toSeconds now) :
    issueDays now (some d) = wholeDaysBetween now d := by
  rw [issueDays, relativedeltaDays]
  rw [rdMonths_same_month now d hv hy hm hle, addMonths_zero d hv]
  rw [truncDiv, if_pos (by omega), wholeDaysBetween]
  rw [show ((86400 : Nat) : Int) = (86400 : Int) from rfl]

/-- Counterexample to C5: an issue assigned thirty-five whole days before
now is processed with a days value of 5 — the relativedelta day component
left after removing one whole calendar month — while the difference in
whole days is 35. -/
theorem issueDays_not_whole_days :
    get_issues_without_pull_requests (netAssignedAt dt35) now35 (.ok [sampleIssue]) (.ok [])
        = [⟨sampleIssue, some ⟨"alice", some dt35⟩, 5⟩]
    ∧ wholeDaysBetween now35 dt35 = 35
    ∧ ((5 : Int) = 35 ↔ False) :=
  ⟨by decide, by decide, by decide⟩

/-- Claim C5 amended: the days value computed for an issue equals the
days component of the dateutil calendar decomposition of the span, which
coincides with the difference in whole days whenever the assignment and
the current time fall within the same calendar month (and in general
counts only the days left after whole calendar months are removed); the
value is 0 when the issue has no assignment timestamp. -/
theorem issueDays_spec_amended :
    (∀ (now d : DateTime), ValidDate d → d.year = now.year → d.month = now.month →
      toSeconds d ≤ toSeconds now →
      issueDays now (some d) = wholeDaysBetween now d)
    ∧ ∀ now : DateTime, issueDays now none = 0 :=
  ⟨fun now d hv hy hm hle => issueDays_same_month now d hv hy hm hle,
   fun _ => rfl⟩

/-- Witness for C5 amended: seven days within one month give days = 7. -/
theorem issueDays_spec_amended_witness :
    issueDays ⟨2025, 1, 10, 0, 0, 0⟩ (some ⟨2025, 1, 3, 0, 0, 0⟩)
        = wholeDaysBetween ⟨2025, 1, 10, 0, 0, 0⟩ ⟨2025, 1, 3, 0, 0, 0⟩
    ∧ wholeDaysBetween ⟨2025, 1, 10, 0, 0, 0⟩ ⟨2025, 1, 3, 0, 0, 0⟩ = 7 :=
  ⟨issueDays_spec_amended.1 ⟨2025, 1, 10, 0, 0, 0⟩ ⟨2025, 1, 3, 0, 0, 0⟩
      (by decide) rfl rfl (by decide),
   by decide⟩

theorem seeding_step (fetched : List (String × List String))
    (urm : List String → List (String × List String)) (cache : Cache)
    (h : cache.firstRunFlag = false) :
    get_relevant_recipients fetched urm cache = .ok ⟨⟨false, some fetched⟩, []⟩ := by
  obtain ⟨flag, ei⟩ := cache
  subst h
  rfl

theorem flag_preserved (fetched : List (String × List String))
    (urm : List String → List (String × List String)) (cache : Cache) (r : CycleResult)
    (h : get_relevant_recipients fetched urm cache = .ok r) :
    r.cache.firstRunFlag = cache.firstRunFlag := by
  obtain ⟨flag, ei⟩ := cache
  cases flag with
  | false =>
    rw [seeding_step fetched urm ⟨false, ei⟩ rfl] at h
    obtain rfl := Except.ok.inj h
    rfl
  | true =>
    rw [get_relevant_recipients] at h
    cases ei with
    | none => cases h
    | some prev =>
      dsimp only at h
      cases hcmp : compare_two_repo_dicts fetched prev with
      | none => rw [hcmp] at h; cases h
      | some newIssues =>
        rw [hcmp] at h
        dsimp only at h
        cases hs : (send_new_issue_notification (urm (newIssues.map fun p => p.1)) newIssues).2 with
        | none =>
          rw [hs] at h
          obtain rfl := Except.ok.inj h
          rfl
        | some e => rw [hs] at h; cases h

theorem runCycles_silent (urm : List String → List (String × List String))
    (cache : Cache) (fs : List (List (String × List String)))
    (h : cache.firstRunFlag = false) :
    (runCycles urm cache fs).2 = [] := by
  induction fs generalizing cache with
  | nil => rfl
  | cons f fs ih =>
    rw [runCycles, seeding_step f urm cache h]
    dsimp only
    rw [ih ⟨false, some f⟩ rfl]
    rfl

/-- Claim C6: on a poll cycle in which no previous snapshot exists in the
cache (hence the first-run sentinel does not exist either, since nothing
ever writes it), get_relevant_recipients stores the current snapshot
under the existing:issues key and sends zero notifications, even for a
non-empty current snapshot. -/
theorem get_relevant_recipients_first_run :
    ∀ (fetched : List (String × List String))
      (urm : List String → List (String × List String)) (cache : Cache),
      cache.existingIssues = none → cache.firstRunFlag = false →
      get_relevant_recipients fetched urm cache = .ok ⟨⟨false, some fetched⟩, []⟩ :=
  fun fetched urm cache _ hflag => seeding_step fetched urm cache hflag

/-- Witness for C6: a fresh cache and a non-empty snapshot. -/
theorem get_relevant_recipients_first_run_witness :
    get_relevant_recipients [("r", ["t1", "t2"])] (fun _ => []) ⟨false, none⟩
      = .ok ⟨⟨false, some [("r", ["t1", "t2"])]⟩, []⟩ :=
  get_relevant_recipients_first_run [("r", ["t1", "t2"])] (fun _ => []) ⟨false, none⟩ rfl rfl

/-- Evaluation for C7 at the failing input: a cycle that reads the cached
snapshot of one title for repository r and diffs it against a fetched
snapshot of two titles completes, yet leaves the existing:issues entry
holding the old snapshot instead of the fetched one — the diff branch
contains no cache write. -/
theorem get_relevant_recipients_diff_branch_no_write :
    get_relevant_recipients [("r", ["b", "a"])] (fun _ => []) ⟨true, some [("r", ["a"])]⟩
      = .ok ⟨⟨true, some [("r", ["a"])]⟩, []⟩
    ∧ ((⟨true, some [("r", ["a"])]⟩ : Cache).existingIssues = some [("r", ["b", "a"])] ↔ False) :=
  ⟨rfl, by decide⟩

/-- Evaluation for C8 at the failing input: one subscriber mapped to one
repository with one new issue; iterating over the values of the map and
tuple-unpacking the single-element repository list raises ValueError and
no message at all is sent, where the specified behavior is one message to
the subscriber listing the issue. -/
theorem send_new_issue_notification_values_bug :
    send_new_issue_notification [("42", ["repoA"])] [("repoA", ["issue1"])]
      = ([], some PyError.valueError) := by decide

/-- Claim C10: the task_first_run_flag key is never written by the
program, so from any cache state the program alone can produce (the flag
absent), every invocation of get_relevant_recipients takes the seeding
branch — overwriting existing:issues with the current snapshot and
returning — the flag stays absent ever after, and no run of successive
cycles ever sends a notification. -/
theorem task_first_run_flag_never_set :
    (∀ (fetched : List (String × List String))
        (urm : List String → List (String × List String)) (cache : Cache) (r : CycleResult),
      get_relevant_recipients fetched urm cache = .ok r →
      r.cache.firstRunFlag = cache.firstRunFlag)
    ∧ (∀ (fetched : List (String × List String))
        (urm : List String → List (String × List String)) (cache : Cache),
      cache.firstRunFlag = false →
      get_relevant_recipients fetched urm cache = .ok ⟨⟨false, some fetched⟩, []⟩)
    ∧ (∀ (urm : List String → List (String × List String)) (cache : Cache)
        (fs : List (List (String × List String))),
      cache.firstRunFlag = false → (runCycles urm cache fs).2 = []) :=
  ⟨flag_preserved, seeding_step, runCycles_silent⟩

/-- Witness for C10: two cycles from a fresh cache with growing
snapshots send nothing. -/
theorem task_first_run_flag_never_set_witness :
    (runCycles (fun _ => [("42", ["r", "r"])]) ⟨false, none⟩
        [[("r", ["a"])], [("r", ["b", "a"])]]).2 = [] :=
  task_first_run_flag_never_set.2.2 (fun _ => [("42", ["r", "r"])]) ⟨false, none⟩
    [[("r", ["a"])], [("r", ["b", "a"])]] rfl

end Tracker
